import Mathlib

/-!
Shallow embedding of the real-time audio session in
`src/components/LiveChat.tsx` (the RealtimeAudioSession of the spec).

Numbers: JS doubles are modelled as `ℚ`; 16-bit PCM samples as `ℤ` with an
explicit wrap `toInt16` (the ToInt16 conversion performed when a number is
stored into an `Int16Array`); bytes as `ℕ` (values `< 256`).  The browser
builtins `btoa`/`atob` are modelled as standard base64 on byte lists (the
source's `encode`/`decode` convert bytes to a binary string char-for-char,
which is the identity on byte values, and then call the builtins).
-/

namespace LiveChatSpec

/-- The standard base64 alphabet used by the browser `btoa`/`atob` builtins. -/
def b64Alphabet : List Char :=
  "ABCDEFGHIJKLMNOPQRSTUVWXYZabcdefghijklmnopqrstuvwxyz0123456789+/".toList

/-- Sextet value to base64 character. -/
def b64Char (n : ℕ) : Char := b64Alphabet.getD n 'A'

/-- Base64 character to sextet value. -/
def b64Val (c : Char) : ℕ := b64Alphabet.indexOf c

/-- Model of the browser `btoa` builtin: 3 input bytes become 4 output
characters, with `=` padding for a 1- or 2-byte tail. -/
def btoa : List ℕ → List Char
  | [] => []
  | [b1] => [b64Char (b1 / 4), b64Char (b1 % 4 * 16), '=', '=']
  | [b1, b2] =>
      [b64Char (b1 / 4), b64Char (b1 % 4 * 16 + b2 / 16), b64Char (b2 % 16 * 4), '=']
  | b1 :: b2 :: b3 :: rest =>
      b64Char (b1 / 4) :: b64Char (b1 % 4 * 16 + b2 / 16) ::
        b64Char (b2 % 16 * 4 + b3 / 64) :: b64Char (b3 % 64) :: btoa rest

/-- Model of the browser `atob` builtin: 4 input characters become 3 output
bytes, fewer when `=` padding is present. -/
def atob : List Char → List ℕ
  | c1 :: c2 :: c3 :: c4 :: rest =>
      let v1 := b64Val c1
      let v2 := b64Val c2
      if c3 = '=' then
        [v1 * 4 + v2 / 16]
      else
        let v3 := b64Val c3
        if c4 = '=' then
          [v1 * 4 + v2 / 16, v2 % 16 * 16 + v3 / 4]
        else
          (v1 * 4 + v2 / 16) :: (v2 % 16 * 16 + v3 / 4) ::
            (v3 % 4 * 64 + b64Val c4) :: atob rest
  | _ => []

/-- LiveChat.tsx `encode`: bytes → binary string → `btoa`.  Building the
binary string with `String.fromCharCode` is the identity on byte values,
so `encode` is `btoa`. -/
def encode (bytes : List ℕ) : List Char := btoa bytes

/-- LiveChat.tsx `decode`: `atob` → binary string → bytes via `charCodeAt`,
again the identity on byte values. -/
def decode (base64 : List Char) : List ℕ := atob base64

/-- JS ToIntegerOrInfinity on a finite number: truncation toward zero. -/
def jsTrunc (x : ℚ) : ℤ := if 0 ≤ x then ⌊x⌋ else -⌊-x⌋

/-- Wrap an integer into the signed 16-bit range, as storing into an
`Int16Array` does (ToInt16). -/
def toInt16 (n : ℤ) : ℤ := (n + 32768) % 65536 - 32768

/-- Per-sample outbound conversion of `createBlob`:
`int16[i] = data[i] * 32768` stores the truncated product modulo 2^16. -/
def encodeSample (x : ℚ) : ℤ := toInt16 (jsTrunc (x * 32768))

/-- The `Int16Array` built by `createBlob` from the float samples. -/
def createBlobInt16 (data : List ℚ) : List ℤ := data.map encodeSample

/-- Little-endian byte pair of a signed 16-bit value. -/
def int16ToBytesLE (n : ℤ) : List ℕ :=
  [(n % 65536).toNat % 256, (n % 65536).toNat / 256]

/-- The raw byte view (`Uint8Array(int16.buffer)`) of an `Int16Array`,
little-endian as on the platforms the code targets. -/
def int16sToBytes (ns : List ℤ) : List ℕ := (ns.map int16ToBytesLE).flatten

/-- The `{ data, mimeType }` pair returned by `createBlob`. -/
structure GenAIBlob where
  data : List Char
  mimeType : String
deriving DecidableEq

/-- LiveChat.tsx `createBlob`: scale float samples by 32768 into an
`Int16Array`, view as bytes, base64-encode, tag with the PCM mime type. -/
def createBlob (data : List ℚ) : GenAIBlob :=
  { data := encode (int16sToBytes (createBlobInt16 data))
    mimeType := "audio/pcm;rate=16000" }

/-- Reinterpret a byte list as little-endian signed 16-bit samples
(`new Int16Array(data.buffer)`); a trailing odd byte is dropped. -/
def bytesToInt16LE : List ℕ → List ℤ
  | lo :: hi :: rest => toInt16 ((lo : ℤ) + 256 * hi) :: bytesToInt16LE rest
  | _ => []

/-- LiveChat.tsx `decodeAudioData`: split the 16-bit samples into
`numChannels` channels, each sample divided by 32768.0.  Returns the list
of channel-data arrays of the created `AudioBuffer`. -/
def decodeAudioData (data : List ℕ) (numChannels : ℕ) : List (List ℚ) :=
  let dataInt16 := bytesToInt16LE data
  let frameCount := dataInt16.length / numChannels
  (List.range numChannels).map fun channel =>
    (List.range frameCount).map fun i =>
      ((dataInt16.getD (i * numChannels + channel) 0 : ℤ) : ℚ) / 32768

/-- Duration of the `AudioBuffer` created by `decodeAudioData`:
`frameCount / sampleRate`. -/
def audioBufferDuration (data : List ℕ) (numChannels sampleRate : ℕ) : ℚ :=
  (((bytesToInt16LE data).length / numChannels : ℕ) : ℚ) / (sampleRate : ℚ)

/-- JS whitespace characters relevant to `String.prototype.trim`. -/
def isJsSpace (c : Char) : Bool :=
  c = ' ' || c = '\t' || c = '\n' || c = '\r' || c = '\x0b' || c = '\x0c'

/-- Model of JS `String.prototype.trim`: strip whitespace from both ends. -/
def jsTrim (s : String) : String :=
  String.mk (((s.toList.dropWhile isJsSpace).reverse.dropWhile isJsSpace).reverse)

/-- Transcript entry speaker tag. -/
inductive Speaker where
  | user
  | model
deriving DecidableEq

/-- One finalized entry of `transcriptionHistory`. -/
structure TranscriptEntry where
  speaker : Speaker
  text : String
deriving DecidableEq

/-- The mutable state of the LiveChat component: React state plus the
refs (`sessionPromiseRef`, `streamRef`, `audioContextRefs`,
`outputPlayback`, `transcriptionRefs`).  Handles are modelled as presence
flags; the active playback buffers as a list of ids. -/
structure LiveChatState where
  isSessionActive : Bool
  statusMessage : String
  error : Option String
  transcriptionHistory : List TranscriptEntry
  sessionOpen : Bool
  hasStream : Bool
  hasProcessor : Bool
  hasSource : Bool
  hasInputCtx : Bool
  hasOutputCtx : Bool
  nextStartTime : ℚ
  sources : List ℕ
  currentInput : String
  currentOutput : String
deriving DecidableEq

/-- Externally visible actions performed on device handles, playback
buffers and the connection. -/
inductive Effect where
  | stopTrack
  | disconnectProcessor
  | disconnectSource
  | closeInputCtx
  | closeOutputCtx
  | stopPlayback (id : ℕ)
  | closeSession
  | openConnection
  | scheduleSource (id : ℕ) (start : ℚ)
deriving DecidableEq

/-- LiveChat.tsx `cleanup`: stop mic tracks, disconnect processor and
source, close both contexts (each guarded by presence), stop and clear
all pending playback buffers, deactivate and set the status message.
The transcript accumulators, history, error and `nextStartTime` are not
touched. -/
def cleanup (s : LiveChatState) : LiveChatState × List Effect :=
  ({ s with
      hasStream := false
      hasProcessor := false
      hasSource := false
      hasInputCtx := false
      hasOutputCtx := false
      sources := []
      isSessionActive := false
      statusMessage := "Session ended. Click Start to begin again." },
    (if s.hasStream then [Effect.stopTrack] else []) ++
    (if s.hasProcessor then [Effect.disconnectProcessor] else []) ++
    (if s.hasSource then [Effect.disconnectSource] else []) ++
    (if s.hasInputCtx then [Effect.closeInputCtx] else []) ++
    (if s.hasOutputCtx then [Effect.closeOutputCtx] else []) ++
    s.sources.map Effect.stopPlayback)

/-- LiveChat.tsx `handleStop`: close the session if one is open, null the
ref, then `cleanup`. -/
def handleStop (s : LiveChatState) : LiveChatState × List Effect :=
  let closeEffects := if s.sessionOpen then [Effect.closeSession] else []
  let p := cleanup { s with sessionOpen := false }
  (p.1, closeEffects ++ p.2)

/-- LiveChat.tsx `handleStart` up to the `live.connect` call, with the
microphone-permission outcome as a parameter.  On denial it sets the
error and status and returns before touching contexts or the connection;
on grant it opens both contexts, resets `nextStartTime`, activates the
session and opens the connection.  The transcript accumulators are not
reset in either case; the finalized history is. -/
def handleStart (micGranted : Bool) (s : LiveChatState) :
    LiveChatState × List Effect :=
  let s0 := { s with
      error := none
      transcriptionHistory := []
      statusMessage := "Requesting microphone access..." }
  if micGranted then
    ({ s0 with
        hasStream := true
        hasInputCtx := true
        hasOutputCtx := true
        nextStartTime := 0
        isSessionActive := true
        statusMessage := "Connecting to Gemini..."
        sessionOpen := true },
      [Effect.openConnection])
  else
    ({ s0 with
        error := some "Microphone access denied. Please allow microphone access in your browser settings."
        statusMessage := "Microphone access denied." },
      [])

/-- The turn-complete branch of `onmessage`: append the accumulators to
the history (user first, then model, each only when its trimmed text is
non-empty), then clear both accumulators. -/
def handleTurnComplete (s : LiveChatState) : LiveChatState :=
  let fullInput := s.currentInput
  let fullOutput := s.currentOutput
  let h1 := if jsTrim fullInput ≠ "" then
      s.transcriptionHistory ++ [⟨Speaker.user, fullInput⟩]
    else s.transcriptionHistory
  let h2 := if jsTrim fullOutput ≠ "" then h1 ++ [⟨Speaker.model, fullOutput⟩] else h1
  { s with transcriptionHistory := h2, currentInput := "", currentOutput := "" }

/-- The audio branch of `onmessage`: bump `nextStartTime` to
`max nextStartTime deviceTime`, schedule the new buffer at that start,
advance `nextStartTime` by the buffer's duration, register the buffer. -/
def handleAudioFragment (deviceTime duration : ℚ) (srcId : ℕ)
    (s : LiveChatState) : LiveChatState × List Effect :=
  let start := max s.nextStartTime deviceTime
  ({ s with
      nextStartTime := start + duration
      sources := s.sources ++ [srcId] },
    [Effect.scheduleSource srcId start])

/-- The interruption branch of `onmessage`: stop every pending buffer,
clear the set, and set `nextStartTime` to 0. -/
def handleInterrupted (s : LiveChatState) : LiveChatState × List Effect :=
  ({ s with sources := [], nextStartTime := 0 }, s.sources.map Effect.stopPlayback)

/-- One `LiveServerMessage` as consumed by `onmessage`. -/
structure ServerMessage where
  inputTranscription : Option String
  outputTranscription : Option String
  turnComplete : Bool
  audioData : Option (List Char)
  interrupted : Bool

/-- LiveChat.tsx `onmessage`, in source order: append transcription
fragments, flush on turn-complete, decode and schedule an audio fragment
(skipped when the data string is empty, which is falsy), handle
interruption.  `deviceTime` is `outputCtx.currentTime` at this event and
`srcId` the fresh id of the buffer source created for this fragment. -/
def onmessage (msg : ServerMessage) (deviceTime : ℚ) (srcId : ℕ)
    (s : LiveChatState) : LiveChatState × List Effect :=
  let s1 := match msg.inputTranscription with
    | some t => { s with currentInput := s.currentInput ++ t }
    | none => s
  let s2 := match msg.outputTranscription with
    | some t => { s1 with currentOutput := s1.currentOutput ++ t }
    | none => s1
  let s3 := if msg.turnComplete then handleTurnComplete s2 else s2
  let p4 := match msg.audioData with
    | some data =>
        if data = [] then (s3, ([] : List Effect))
        else handleAudioFragment deviceTime (audioBufferDuration (decode data) 1 24000) srcId s3
    | none => (s3, ([] : List Effect))
  let p5 := if msg.interrupted then handleInterrupted p4.1 else (p4.1, ([] : List Effect))
  (p5.1, p4.2 ++ p5.2)

/-- LiveChat.tsx `onerror`: set the error string (prefixed with
"Connection error: ") and stop the session. -/
def onerror (msg : String) (s : LiveChatState) : LiveChatState × List Effect :=
  handleStop { s with error := some ("Connection error: " ++ msg) }

/-- Run a sequence of audio fragments `(deviceTime, duration, srcId)`
through `handleAudioFragment`, collecting each scheduled
`(start, duration)` pair. -/
def scheduleRun : LiveChatState → List (ℚ × ℚ × ℕ) → List (ℚ × ℚ)
  | _, [] => []
  | s, (t, d, i) :: rest =>
      (max s.nextStartTime t, d) :: scheduleRun (handleAudioFragment t d i s).1 rest

/-- The initial component state. -/
def idleState : LiveChatState :=
  { isSessionActive := false
    statusMessage := "Click Start to begin conversation."
    error := none
    transcriptionHistory := []
    sessionOpen := false
    hasStream := false
    hasProcessor := false
    hasSource := false
    hasInputCtx := false
    hasOutputCtx := false
    nextStartTime := 0
    sources := []
    currentInput := ""
    currentOutput := "" }

/-- A message carrying only an interruption marker. -/
def interruptedOnlyMsg : ServerMessage :=
  { inputTranscription := none
    outputTranscription := none
    turnComplete := false
    audioData := none
    interrupted := true }

/-- A message carrying an input transcription fragment together with a
turn-complete marker. -/
def inputTurnMsg (frag : String) : ServerMessage :=
  { inputTranscription := some frag
    outputTranscription := none
    turnComplete := true
    audioData := none
    interrupted := false }

theorem handleAudioFragment_nextStartTime (t d : ℚ) (i : ℕ) (s : LiveChatState) :
    (handleAudioFragment t d i s).1.nextStartTime = max s.nextStartTime t + d := rfl

theorem scheduleRun_head_start_ge (s : LiveChatState) (frags : List (ℚ × ℚ × ℕ)) :
    ∀ p ∈ (scheduleRun s frags).head?, s.nextStartTime ≤ p.1 := by
  cases frags with
  | nil => simp [scheduleRun]
  | cons f rest =>
      obtain ⟨t, d, i⟩ := f
      intro p hp
      simp only [scheduleRun, List.head?_cons, Option.mem_def, Option.some.injEq] at hp
      rw [← hp]
      exact le_max_left _ _

theorem scheduleRun_chain (s : LiveChatState) (frags : List (ℚ × ℚ × ℕ)) :
    List.Chain' (fun a b : ℚ × ℚ => a.1 + a.2 ≤ b.1) (scheduleRun s frags) := by
  induction frags generalizing s with
  | nil => simp [scheduleRun]
  | cons f rest ih =>
      obtain ⟨t, d, i⟩ := f
      rw [scheduleRun, List.chain'_cons']
      refine ⟨?_, ih _⟩
      intro b hb
      have h := scheduleRun_head_start_ge (handleAudioFragment t d i s).1 rest b hb
      rw [handleAudioFragment_nextStartTime] at h
      exact h

theorem toInt16_eq_self (n : ℤ) (h1 : -32768 ≤ n) (h2 : n ≤ 32767) :
    toInt16 n = n := by
  unfold toInt16
  omega

theorem encodeSample_close (x : ℚ) (h1 : -1 ≤ x) (h2 : x < 1) :
    |x - (encodeSample x : ℚ) / 32768| ≤ 1 / 32768 := by
  have hyu : x * 32768 < 32768 := by nlinarith
  unfold encodeSample jsTrunc
  by_cases hx : 0 ≤ x * 32768
  · rw [if_pos hx]
    have hf0 : (0 : ℤ) ≤ ⌊x * 32768⌋ := Int.floor_nonneg.mpr hx
    have hfu : ⌊x * 32768⌋ < 32768 := by
      rw [Int.floor_lt]
      exact_mod_cast hyu
    rw [toInt16_eq_self _ (by omega) (by omega)]
    have hle : (⌊x * 32768⌋ : ℚ) ≤ x * 32768 := Int.floor_le _
    have hgt : x * 32768 < ⌊x * 32768⌋ + 1 := Int.lt_floor_add_one _
    rw [abs_le]
    constructor <;> linarith
  · rw [if_neg hx]
    push_neg at hx
    have hf0 : (0 : ℤ) ≤ ⌊-(x * 32768)⌋ := Int.floor_nonneg.mpr (by linarith)
    have hfu : ⌊-(x * 32768)⌋ ≤ 32768 := by
      have h328 : -(x * 32768) ≤ 32768 := by nlinarith
      calc ⌊-(x * 32768)⌋ ≤ ⌊(32768 : ℚ)⌋ := Int.floor_le_floor h328
        _ = 32768 := by norm_num
    have hle : (⌊-(x * 32768)⌋ : ℚ) ≤ -(x * 32768) := Int.floor_le _
    have hgt : -(x * 32768) < ⌊-(x * 32768)⌋ + 1 := Int.lt_floor_add_one _
    rw [toInt16_eq_self _ (by omega) (by omega)]
    push_cast
    rw [abs_le]
    constructor <;> linarith

theorem decodeAudioData_one_channel (data : List ℕ) :
    decodeAudioData data 1
      = [(bytesToInt16LE data).map fun v => ((v : ℤ) : ℚ) / 32768] := by
  unfold decodeAudioData
  simp only [List.range_succ, List.range_zero, List.nil_append, List.map_cons,
    List.map_nil, Nat.div_one]
  congr 1
  apply List.ext_getElem
  · simp
  · intro n h1 h2
    rw [List.getElem_map, List.getElem_range, mul_one, add_zero, List.getElem_map,
      List.getD_eq_getElem _ _ (by simpa using h2)]

theorem encodeSample_one : encodeSample 1 = -32768 := by
  have hm : ((1 : ℚ) * 32768) = 32768 := by norm_num
  unfold encodeSample jsTrunc
  rw [hm, if_pos (by norm_num)]
  have hf : ⌊(32768 : ℚ)⌋ = 32768 := by norm_num
  rw [hf]
  decide

theorem encodeSample_half : encodeSample (1 / 2) = 16384 := by
  have hm : ((1 : ℚ) / 2 * 32768) = 16384 := by norm_num
  unfold encodeSample jsTrunc
  rw [hm, if_pos (by norm_num)]
  have hf : ⌊(16384 : ℚ)⌋ = 16384 := by norm_num
  rw [hf]
  decide

theorem roundTrip_half :
    decodeAudioData (decode (createBlob [1 / 2]).data) 1 = [[1 / 2]] := by
  have h1 : createBlobInt16 [1 / 2] = [16384] := by
    show [encodeSample (1 / 2)] = [16384]
    rw [encodeSample_half]
  have h2 : int16sToBytes (createBlobInt16 [1 / 2]) = [0, 64] := by
    rw [h1]
    decide
  have hdata : (createBlob [1 / 2]).data = encode [0, 64] := by
    show encode (int16sToBytes (createBlobInt16 [1 / 2])) = encode [0, 64]
    rw [h2]
  have h3 : decode (encode [0, 64]) = [0, 64] := by decide
  have h4 : bytesToInt16LE [0, 64] = [16384] := by decide
  rw [hdata, h3, decodeAudioData_one_channel, h4]
  norm_num

/-- C1: each inbound audio fragment is scheduled to start at
`max(playbackClock, deviceCurrentTime)`, the playback clock is then
advanced by exactly the fragment's duration, the buffer is registered,
and over any uninterrupted fragment sequence consecutive scheduled
buffers never overlap (each start is at least the previous start plus
the previous duration). -/
theorem c1_fragment_scheduling (s : LiveChatState) (t d : ℚ) (i : ℕ)
    (frags : List (ℚ × ℚ × ℕ)) :
    (handleAudioFragment t d i s).2 = [Effect.scheduleSource i (max s.nextStartTime t)]
    ∧ (handleAudioFragment t d i s).1.nextStartTime = max s.nextStartTime t + d
    ∧ (handleAudioFragment t d i s).1.sources = s.sources ++ [i]
    ∧ List.Chain' (fun a b : ℚ × ℚ => a.1 + a.2 ≤ b.1) (scheduleRun s frags) :=
  ⟨rfl, rfl, rfl, scheduleRun_chain s frags⟩

/-- C2 (amended): an interruption event stops every pending playback
buffer and leaves the active buffer set empty, for any number of pending
buffers, but it resets the playback clock to 0 rather than to the output
device's current time; the clock only catches up with the device clock at
the next scheduling's max-update. -/
theorem c2_interruption_amended (s : LiveChatState) (t : ℚ) (i : ℕ) :
    (onmessage interruptedOnlyMsg t i s).2 = s.sources.map Effect.stopPlayback
    ∧ (onmessage interruptedOnlyMsg t i s).1.sources = []
    ∧ (onmessage interruptedOnlyMsg t i s).1.nextStartTime = 0 :=
  ⟨rfl, rfl, rfl⟩

/-- C2 counterexample: with two pending buffers and device time 3 at the
moment of interruption, the playback clock afterwards is 0, not 3. -/
theorem c2_interruption_counterexample :
    (onmessage interruptedOnlyMsg 3 0
        { idleState with nextStartTime := 5, sources := [7, 8] }).1.nextStartTime ≠ 3 := by
  norm_num [onmessage, interruptedOnlyMsg, handleInterrupted]

/-- C3 (amended): before scheduling a buffer the clock is updated to
`max(nextStartTime, currentDeviceTime)` (hence the scheduled start is at
least the device time), after scheduling it is advanced by the buffer's
duration (so with a nonnegative duration it still dominates the device
time observed at scheduling); but an interruption event sets the clock to
0, not to the device's current time, so `nextStartTime ≥ currentDeviceTime`
can fail between an interruption and the next scheduling. -/
theorem c3_clock_invariant_amended (s : LiveChatState) (t d : ℚ) (i : ℕ)
    (hd : 0 ≤ d) :
    t ≤ max s.nextStartTime t
    ∧ (handleAudioFragment t d i s).2 = [Effect.scheduleSource i (max s.nextStartTime t)]
    ∧ (handleAudioFragment t d i s).1.nextStartTime = max s.nextStartTime t + d
    ∧ t ≤ (handleAudioFragment t d i s).1.nextStartTime
    ∧ (onmessage interruptedOnlyMsg t i s).1.nextStartTime = 0 :=
  ⟨le_max_right _ _, rfl, rfl, by
      rw [handleAudioFragment_nextStartTime]
      have := le_max_right s.nextStartTime t
      linarith, rfl⟩

/-- C3 witness: the amended clock laws at device time 2 and duration 1
from the idle state. -/
theorem c3_clock_invariant_witness :
    (0 : ℚ) ≤ 1
    ∧ ((2 : ℚ) ≤ max idleState.nextStartTime 2
      ∧ (handleAudioFragment 2 1 0 idleState).2
          = [Effect.scheduleSource 0 (max idleState.nextStartTime 2)]
      ∧ (handleAudioFragment 2 1 0 idleState).1.nextStartTime
          = max idleState.nextStartTime 2 + 1
      ∧ (2 : ℚ) ≤ (handleAudioFragment 2 1 0 idleState).1.nextStartTime
      ∧ (onmessage interruptedOnlyMsg 2 0 idleState).1.nextStartTime = 0) :=
  ⟨by norm_num, c3_clock_invariant_amended idleState 2 1 0 (by norm_num)⟩

/-- C3 counterexample: immediately after an interruption at device time 4
the clock is 0, so the claimed invariant `nextStartTime ≥ currentDeviceTime`
(and the claimed reset to the device time) fails. -/
theorem c3_clock_invariant_counterexample :
    (onmessage interruptedOnlyMsg 4 0
        { idleState with nextStartTime := 6, sources := [2] }).1.nextStartTime < 4 := by
  norm_num [onmessage, interruptedOnlyMsg, handleInterrupted]

/-- C4 (amended): on a turn-complete marker an accumulator produces a
transcript entry exactly when its text is non-empty after trimming
whitespace (not merely non-empty): user-only appends one user-tagged
entry, both append two in user-then-model order, none appends nothing;
both accumulators are cleared afterwards. -/
theorem c4_turn_complete_amended (s : LiveChatState) :
    (jsTrim s.currentInput ≠ "" → jsTrim s.currentOutput = "" →
      (handleTurnComplete s).transcriptionHistory
        = s.transcriptionHistory ++ [⟨Speaker.user, s.currentInput⟩])
    ∧ (jsTrim s.currentInput ≠ "" → jsTrim s.currentOutput ≠ "" →
      (handleTurnComplete s).transcriptionHistory
        = s.transcriptionHistory
            ++ [⟨Speaker.user, s.currentInput⟩, ⟨Speaker.model, s.currentOutput⟩])
    ∧ (jsTrim s.currentInput = "" → jsTrim s.currentOutput = "" →
      (handleTurnComplete s).transcriptionHistory = s.transcriptionHistory)
    ∧ (handleTurnComplete s).currentInput = ""
    ∧ (handleTurnComplete s).currentOutput = "" := by
  unfold handleTurnComplete
  refine ⟨?_, ?_, ?_, rfl, rfl⟩ <;> intro h1 h2 <;> simp [h1, h2]

/-- C4 witness: a turn-complete with user accumulator "hi" and empty
model accumulator appends exactly the one user entry and clears both
accumulators. -/
theorem c4_turn_complete_witness :
    jsTrim "hi" ≠ "" ∧ jsTrim "" = ""
    ∧ (handleTurnComplete { idleState with currentInput := "hi" }).transcriptionHistory
        = [⟨Speaker.user, "hi"⟩]
    ∧ (handleTurnComplete { idleState with currentInput := "hi" }).currentInput = "" := by
  refine ⟨by decide, by decide, ?_, ?_⟩
  · have h := (c4_turn_complete_amended { idleState with currentInput := "hi" }).1
      (by decide) (by decide)
    simpa [idleState] using h
  · exact (c4_turn_complete_amended { idleState with currentInput := "hi" }).2.2.2.1

/-- C4 counterexample: a whitespace-only (hence non-empty) user
accumulator with an empty model accumulator appends no entry at all on
turn-complete, not exactly one. -/
theorem c4_turn_complete_counterexample :
    (handleTurnComplete { idleState with currentInput := " " }).transcriptionHistory.length
      ≠ ({ idleState with currentInput := " " } : LiveChatState).transcriptionHistory.length
          + 1 := by
  decide

/-- C5: `stop()` is idempotent: a second `handleStop` on the state left
by a first one changes nothing and performs no release effect (no track
stop, no disconnect, no context close, no buffer stop, no session close)
a second time. -/
theorem c5_stop_idempotent (s : LiveChatState) :
    handleStop (handleStop s).1 = ((handleStop s).1, []) := by
  cases s
  simp [handleStop, cleanup]

/-- C6: the outbound encoder tags every blob `audio/pcm;rate=16000`; the
inbound decoder turns the byte stream into the little-endian signed
16-bit samples each divided by 32768; every sample in [-1, 1) is encoded
to within one quantization step (1/32768) of itself; and the sample 0.5
round-trips through createBlob, base64 decode and decodeAudioData back
to exactly 0.5, within 1/32768 of 0.5. -/
theorem c6_codec_contract :
    (∀ data : List ℚ, (createBlob data).mimeType = "audio/pcm;rate=16000")
    ∧ (∀ data : List ℕ, decodeAudioData data 1
        = [(bytesToInt16LE data).map fun v => ((v : ℤ) : ℚ) / 32768])
    ∧ (∀ x : ℚ, -1 ≤ x → x < 1 → |x - (encodeSample x : ℚ) / 32768| ≤ 1 / 32768)
    ∧ decodeAudioData (decode (createBlob [1/2]).data) 1 = [[1/2]]
    ∧ |(1 : ℚ) / 2 - 1 / 2| ≤ 1 / 32768 :=
  ⟨fun _ => rfl, decodeAudioData_one_channel, encodeSample_close, roundTrip_half,
    by norm_num⟩

/-- C6 witness: the codec contract instantiated at the sample 0.5. -/
theorem c6_codec_contract_witness :
    (-1 ≤ (1 : ℚ) / 2 ∧ (1 : ℚ) / 2 < 1)
    ∧ (createBlob [(1 : ℚ) / 2]).mimeType = "audio/pcm;rate=16000"
    ∧ |(1 : ℚ) / 2 - (encodeSample ((1 : ℚ) / 2) : ℚ) / 32768| ≤ 1 / 32768 :=
  ⟨⟨by norm_num, by norm_num⟩, c6_codec_contract.1 [(1 : ℚ) / 2],
    c6_codec_contract.2.2.1 ((1 : ℚ) / 2) (by norm_num) (by norm_num)⟩

/-- C7: when microphone access is denied, `handleStart` returns having
opened no connection (no effect at all), leaving the session-active flag
and connection handle as they were, with the status message reporting
the denial and a user-actionable error set. -/
theorem c7_mic_denied (s : LiveChatState) :
    (handleStart false s).1.isSessionActive = s.isSessionActive
    ∧ (handleStart false s).1.sessionOpen = s.sessionOpen
    ∧ (handleStart false s).2 = []
    ∧ (handleStart false s).1.statusMessage = "Microphone access denied."
    ∧ (handleStart false s).1.error
        = some "Microphone access denied. Please allow microphone access in your browser settings." := by
  simp [handleStart]

/-- C8 (amended): a transport error stops the session (session closed,
inactive, handles released) and surfaces the transport's message as the
user-visible error string prefixed with "Connection error: " — not
verbatim — and no reconnection is attempted. -/
theorem c8_connection_error_amended (s : LiveChatState) (msg : String) :
    (onerror msg s).1.error = some ("Connection error: " ++ msg)
    ∧ (onerror msg s).1.isSessionActive = false
    ∧ (onerror msg s).1.sessionOpen = false
    ∧ (onerror msg s).1.hasStream = false
    ∧ (onerror msg s).1.hasInputCtx = false
    ∧ (onerror msg s).1.hasOutputCtx = false
    ∧ Effect.openConnection ∉ (onerror msg s).2 := by
  refine ⟨rfl, rfl, rfl, rfl, rfl, rfl, ?_⟩
  simp [onerror, handleStop, cleanup]

/-- C8 counterexample: the transport message "boom" is not surfaced
verbatim; the user-visible error string is "Connection error: boom". -/
theorem c8_connection_error_counterexample :
    (onerror "boom" idleState).1.error ≠ some "boom" := by
  decide

/-- C9: a sample exactly at the positive bound 1.0 is stored by the
outbound encoder as -32768 (wrap-around), not as the maximum positive
16-bit value 32767, since the scaled value is written to the Int16Array
without clamping. -/
theorem c9_bound_sample_wraps (data : List ℚ) (i : ℕ) (h : i < data.length)
    (hv : data.getD i 0 = 1) :
    (createBlobInt16 data).getD i 0 = -32768
    ∧ (createBlobInt16 data).getD i 0 ≠ 32767 := by
  have hmap : (createBlobInt16 data).getD i 0 = encodeSample (data.getD i 0) := by
    unfold createBlobInt16
    rw [List.getD_eq_getElem _ _ (by simpa using h), List.getElem_map,
      List.getD_eq_getElem _ _ h]
  rw [hmap, hv, encodeSample_one]
  exact ⟨rfl, by decide⟩

/-- C9 witness: the single-sample buffer [1.0] is encoded to [-32768]. -/
theorem c9_bound_sample_wraps_witness :
    (0 : ℕ) < ([1] : List ℚ).length ∧ ([1] : List ℚ).getD 0 0 = 1
    ∧ (createBlobInt16 [1]).getD 0 0 = -32768
    ∧ (createBlobInt16 [1]).getD 0 0 ≠ 32767 := by
  refine ⟨by norm_num, rfl, ?_, ?_⟩
  · exact (c9_bound_sample_wraps [1] 0 (by norm_num) rfl).1
  · exact (c9_bound_sample_wraps [1] 0 (by norm_num) rfl).2

theorem onmessage_inputTurn (frag : String) (t : ℚ) (i : ℕ) (s : LiveChatState) :
    (onmessage (inputTurnMsg frag) t i s).1
      = handleTurnComplete { s with currentInput := s.currentInput ++ frag } := rfl

theorem turnComplete_head (x : LiveChatState) (hh : x.transcriptionHistory = [])
    (hi : jsTrim x.currentInput ≠ "") :
    (handleTurnComplete x).transcriptionHistory.head?
      = some ⟨Speaker.user, x.currentInput⟩ := by
  unfold handleTurnComplete
  dsimp only
  rw [hh, if_pos hi]
  by_cases h2 : jsTrim x.currentOutput ≠ ""
  · rw [if_pos h2]
    rfl
  · rw [if_neg h2]
    rfl

/-- C10: neither stop nor a subsequent start clears the partial
transcript accumulators: un-finalized text held when a session stops
survives `handleStop` and `handleStart` (which resets only the finalized
history), and is prepended to the first finalized user entry of the next
session. -/
theorem c10_accumulators_survive_restart (s : LiveChatState) (frag : String)
    (t : ℚ) (i : ℕ) (h : jsTrim (s.currentInput ++ frag) ≠ "") :
    (handleStop s).1.currentInput = s.currentInput
    ∧ (handleStop s).1.currentOutput = s.currentOutput
    ∧ (handleStart true (handleStop s).1).1.currentInput = s.currentInput
    ∧ (handleStart true (handleStop s).1).1.currentOutput = s.currentOutput
    ∧ (handleStart true (handleStop s).1).1.transcriptionHistory = []
    ∧ (onmessage (inputTurnMsg frag) t i
          (handleStart true (handleStop s).1).1).1.transcriptionHistory.head?
        = some ⟨Speaker.user, s.currentInput ++ frag⟩ := by
  refine ⟨rfl, rfl, rfl, rfl, rfl, ?_⟩
  rw [onmessage_inputTurn]
  exact turnComplete_head _ rfl h

/-- C10 witness: leftover accumulator text "hel" survives a stop and a
restart and is prepended to the next session's first user entry. -/
theorem c10_accumulators_survive_restart_witness :
    jsTrim ("hel" ++ "lo") ≠ ""
    ∧ (onmessage (inputTurnMsg "lo") 0 0
          (handleStart true
            (handleStop { idleState with currentInput := "hel" }).1).1).1.transcriptionHistory.head?
        = some ⟨Speaker.user, "hel" ++ "lo"⟩ :=
  ⟨by decide,
    (c10_accumulators_survive_restart { idleState with currentInput := "hel" }
      "lo" 0 0 (by decide)).2.2.2.2.2⟩

end LiveChatSpec
